import Mathlib

/-!
# eja/maps: request routing, path sandbox and tile resolution

A shallow embedding of `main.go` (package `maps`).  Go strings are lists of
characters (`GoString`), Go `int` is `Int` with explicit 64-bit wrap-around where
the source does arithmetic, byte slices are lists of byte values.  The file
system, the SQLite driver and the standard-library emitters (`http.ServeFile`,
`http.Redirect`, template execution, the embedded assets) are explicit
parameters collected in `Env`.
-/

namespace EjaMaps

/-! ## Strings -/

/-- A Go string, as the sequence of its characters. -/
abbrev GoString := List Char

/-- A Go byte slice, as the sequence of its byte values. -/
abbrev Bytes := List Nat

/-- The bytes of an ASCII string, as written to a response body. -/
def strBytes (s : GoString) : Bytes := s.map Char.toNat

/-- Go `strings.HasPrefix(s, p)`. -/
def hasPrefix (s p : GoString) : Bool := p.isPrefixOf s

/-- Go `strings.HasSuffix(s, p)`. -/
def hasSuffix (s p : GoString) : Bool := p.isSuffixOf s

/-- Go `strings.TrimPrefix(s, p)`. -/
def trimPrefix (s p : GoString) : GoString :=
  if hasPrefix s p then s.drop p.length else s

/-- Go `strings.TrimSuffix(s, p)`. -/
def trimSuffix (s p : GoString) : GoString :=
  if hasSuffix s p then s.take (s.length - p.length) else s

/-- Go `strings.Contains(s, sub)`. -/
def contains : GoString → GoString → Bool
  | [], sub => sub.isPrefixOf []
  | c :: cs, sub => sub.isPrefixOf (c :: cs) || contains cs sub

/-- Go `strings.Split(s, "/")`: the segments between slashes; never empty. -/
def splitSlash : GoString → List GoString
  | [] => [[]]
  | c :: cs =>
    if c = '/' then [] :: splitSlash cs
    else
      match splitSlash cs with
      | [] => [[c]]
      | seg :: segs => (c :: seg) :: segs

/-- Go `strings.Join(parts, "/")`. -/
def joinSlash : List GoString → GoString
  | [] => []
  | [p] => p
  | p :: q :: ps => p ++ '/' :: joinSlash (q :: ps)

/-! ## 64-bit integers and `strconv.Atoi` -/

/-- The value of a Go `int` (64 bits, two's complement) holding `i` after wrap-around. -/
def wrap64 (i : Int) : Int := (i + 2 ^ 63) % 2 ^ 64 - 2 ^ 63

/-- Whether `i` is a value of Go's 64-bit `int`. -/
def inInt64 (i : Int) : Prop := -(2 : Int) ^ 63 ≤ i ∧ i < 2 ^ 63

instance (i : Int) : Decidable (inInt64 i) := by unfold inInt64; exact inferInstance

/-- Whether `c` is one of `0` .. `9`. -/
def isDigit (c : Char) : Bool := decide (48 ≤ c.toNat) && decide (c.toNat ≤ 57)

/-- The value of a decimal digit string, most significant digit first. -/
def digitsValue (ds : GoString) : Nat :=
  ds.foldl (fun acc c => acc * 10 + (c.toNat - 48)) 0

/-- Go `strconv.Atoi` on a 64-bit platform: an optional sign, then one or more
decimal digits, the value within the range of `int`; `none` is a non-nil error. -/
def atoi (s : GoString) : Option Int :=
  let neg := s.head? = some '-'
  let ds := if s.head? = some '-' ∨ s.head? = some '+' then s.tail else s
  if ds = [] then none
  else if ds.all isDigit then
    let v : Int := if neg then -(digitsValue ds : Int) else (digitsValue ds : Int)
    if inInt64 v then some v else none
  else none

/-! ## `path/filepath` on Unix -/

/-- The element stack of `filepath.Clean`: empty and `.` elements are dropped, a
`..` element removes the element before it, is dropped at the root of a rooted
path and is kept at the start of a relative one. `acc` is the output so far,
last element first. -/
def cleanElems (rooted : Bool) : List GoString → List GoString → List GoString
  | [], acc => acc.reverse
  | e :: es, acc =>
    if e = [] ∨ e = ['.'] then cleanElems rooted es acc
    else if e = ['.', '.'] then
      match acc with
      | [] => if rooted then cleanElems rooted es [] else cleanElems rooted es [e]
      | top :: rest =>
        if top = ['.', '.'] then cleanElems rooted es (e :: top :: rest)
        else cleanElems rooted es rest
    else cleanElems rooted es (e :: acc)

/-- Go `filepath.Clean` on Unix. -/
def filepathClean (path : GoString) : GoString :=
  if path = [] then ['.']
  else
    let rooted := path.head? = some '/'
    let out := joinSlash (cleanElems rooted (splitSlash path) [])
    if rooted then '/' :: out
    else if out = [] then ['.'] else out

/-- Go `filepath.Join(a, b)` on Unix: leading empty elements are ignored, the
rest is joined with slashes and cleaned. -/
def filepathJoin (a b : GoString) : GoString :=
  if a ≠ [] then filepathClean (a ++ '/' :: b)
  else if b ≠ [] then filepathClean b
  else []

/-! ## Server configuration, requests and responses -/

/-- The handler state `Maps` built by `New`; `templates` stands for executing
the embedded `index.html` with `RootPath` and `File`. -/
structure Maps where
  webPath : GoString
  filePath : GoString
  webAuth : GoString
  isFile : Bool
  fileName : GoString
  templates : GoString → GoString → Bytes

/-- The parts of `*http.Request` the handler reads: `r.URL.Path` and
`r.Header.Get` of `Authorization`, `Accept` and `Range` (empty when absent). -/
structure Request where
  path : GoString
  authorization : GoString
  accept : GoString
  range : GoString

/-- A finished response: status code, header map and body. -/
structure Response where
  status : Nat
  header : List (GoString × GoString)
  body : Bytes
deriving DecidableEq

/-- Go `Header.Set`: replaces the value stored under `k`. -/
def headerSet (h : List (GoString × GoString)) (k v : GoString) : List (GoString × GoString) :=
  h.filter (fun kv => kv.1 ≠ k) ++ [(k, v)]

/-- Go `Header.Get`: the value stored under `k`, empty when absent. -/
def headerGet (h : List (GoString × GoString)) (k : GoString) : GoString :=
  match h.find? (fun kv => kv.1 = k) with
  | some kv => kv.2
  | none => []

/-- Go `http.Error(w, msg, code)` on a writer whose header map is `h`. -/
def httpError (h : List (GoString × GoString)) (msg : GoString) (code : Nat) : Response :=
  { status := code
    header := headerSet (headerSet h "Content-Type".toList "text/plain; charset=utf-8".toList)
      "X-Content-Type-Options".toList "nosniff".toList
    body := strBytes (msg ++ ['\n']) }

/-- Go `http.NotFound(w, r)`. -/
def httpNotFound : Response := httpError [] "404 page not found".toList 404

/-! ## The environment: file system, SQLite, standard-library emitters -/

/-- Outcome of `os.Stat`, as far as `os.IsNotExist` tells it apart. -/
inductive StatResult
  | ok
  | notExist
  | otherError
deriving DecidableEq

/-- A row of the `tiles` table. -/
structure TileRow where
  zoom_level : Int
  tile_column : Int
  tile_row : Int
  tile_data : Bytes
deriving DecidableEq

/-- What the handler consults outside itself. `tiles p` and `metadata p` are the
tables of the database at `p`, `none` when the query fails (no such table, not a
database); `encodeMetadata` is the JSON body built from the metadata rows. -/
structure Env where
  stat : GoString → StatResult
  sqlOpen : GoString → Bool
  tiles : GoString → Option (List TileRow)
  metadata : GoString → Option (List (GoString × GoString))
  encodeMetadata : List (GoString × GoString) → Bytes
  serveFile : Request → GoString → Response
  redirect : Request → GoString → Nat → Response
  asset : GoString → Option Bytes

/-! ## `resolveFilePath` -/

/-- The three errors `resolveFilePath` makes with `fmt.Errorf`. -/
inductive ResolveError
  | fileMismatch
  | accessDenied
  | notFound
deriving DecidableEq

deriving instance DecidableEq for Except

/-- The method `resolveFilePath`. -/
def resolveFilePath (m : Maps) (env : Env) (reqFile : GoString) : Except ResolveError GoString :=
  if m.isFile then
    if reqFile ≠ m.fileName then .error .fileMismatch
    else .ok (filepathJoin m.filePath m.fileName)
  else
    let full := filepathJoin m.filePath reqFile
    let clean := filepathClean full
    if !hasPrefix clean m.filePath then .error .accessDenied
    else if env.stat clean = .notExist then .error .notFound
    else .ok clean

/-! ## Handlers -/

/-- The error branch every caller of `resolveFilePath` takes:
`http.Error(w, "File not found", http.StatusNotFound)`. -/
def fileNotFound : Response := httpError [] "File not found".toList 404

/-- Go `1 << z` on `int`: a run-time panic (`none`) for a negative count, zero
once the count reaches the width, wrapped in between. -/
def shiftLeftOne (z : Int) : Option Int :=
  if z < 0 then none
  else if z < 64 then some (wrap64 (2 ^ z.toNat))
  else some 0

/-- The expression `(1 << z) - 1 - y` of `handleMBTiles` in 64-bit arithmetic;
`none` when the shift panics. -/
def tmsRow (z y : Int) : Option Int :=
  match shiftLeftOne z with
  | none => none
  | some s => some (wrap64 (wrap64 (s - 1) - y))

/-- Outcome of `db.QueryRow(...).Scan(&data)`. -/
inductive ScanResult
  | row (data : Bytes)
  | errNoRows
  | otherError
deriving DecidableEq

/-- The query `SELECT tile_data FROM tiles WHERE zoom_level=? AND tile_column=?
AND tile_row=?` scanned into `data`: the first matching row. -/
def queryTile (env : Env) (absPath : GoString) (z x tmsY : Int) : ScanResult :=
  match env.tiles absPath with
  | none => .otherError
  | some rows =>
    match rows.find? (fun t => decide (t.zoom_level = z ∧ t.tile_column = x ∧ t.tile_row = tmsY)) with
    | none => .errNoRows
    | some t => .row t.tile_data

/-- The tail of `handleMBTiles` from the first `w.Header().Set` on: the tile
response for `data`. -/
def tileResponse (data : Bytes) : Response :=
  let h := headerSet [] "Access-Control-Allow-Origin".toList "*".toList
  let h := headerSet h "Content-Type".toList "application/x-protobuf".toList
  let h := if decide (data.length > 2) && data[0]? == some 0x1f && data[1]? == some 0x8b
    then headerSet h "Content-Encoding".toList "gzip".toList else h
  { status := 200, header := h, body := data }

/-- The part of `handleMBTiles` from `db.QueryRow` on: the lookup at row `tmsY`
of the archive opened at `absPath`, and the response. Only `sql.ErrNoRows` is
tested; on any other error `data` is still nil and is written. -/
def lookupResponse (env : Env) (absPath : GoString) (z x tmsY : Int) : Response :=
  match queryTile env absPath z x tmsY with
  | .errNoRows => httpError [] "Tile not found".toList 404
  | .row data => tileResponse data
  | .otherError => tileResponse []

/-- The method `handleMBTiles`; `none` is a run-time panic before anything is written. -/
def handleMBTiles (m : Maps) (env : Env) (filename : GoString) (z x y : Int) : Option Response :=
  match resolveFilePath m env filename with
  | .error _ => some fileNotFound
  | .ok absPath =>
    if !env.sqlOpen absPath then some (httpError [] "Database error".toList 500)
    else
      match tmsRow z y with
      | none => none
      | some tmsY => some (lookupResponse env absPath z x tmsY)

/-- The method `handleMetadata`; the JSON body is `env.encodeMetadata`. -/
def handleMetadata (m : Maps) (env : Env) (filename : GoString) : Response :=
  match resolveFilePath m env filename with
  | .error _ => fileNotFound
  | .ok absPath =>
    if !env.sqlOpen absPath then httpError [] "Database error".toList 500
    else
      match env.metadata absPath with
      | none => httpError [] "Metadata read error".toList 500
      | some rows =>
        { status := 200
          header := headerSet [] "Content-Type".toList "application/json".toList
          body := env.encodeMetadata rows }

/-- The method `serveRawFile`. -/
def serveRawFile (m : Maps) (env : Env) (r : Request) (filename : GoString) : Response :=
  match resolveFilePath m env filename with
  | .error _ => fileNotFound
  | .ok absPath => env.serveFile r absPath

/-- Go `filepath.Ext` on the reversed path: the suffix from the last dot of the
last element. -/
def extRev : GoString → GoString → GoString
  | [], _ => []
  | c :: cs, acc =>
    if c = '/' then []
    else if c = '.' then '.' :: acc
    else extRev cs (c :: acc)

/-- Go `filepath.Ext`. -/
def filepathExt (path : GoString) : GoString := extRev path.reverse []

/-- The method `serveStatic`. -/
def serveStatic (env : Env) (path : GoString) : Response :=
  match env.asset ("assets/".toList ++ path) with
  | none => httpNotFound
  | some f =>
    let ext := filepathExt path
    let mime :=
      if ext = ".css".toList then "text/css".toList
      else if ext = ".js".toList then "application/javascript".toList
      else if ext = ".json".toList then "application/json".toList
      else if ext = ".png".toList then "image/png".toList
      else if ext = ".jpg".toList ∨ ext = ".jpeg".toList then "image/jpeg".toList
      else "application/octet-stream".toList
    { status := 200, header := headerSet [] "Content-Type".toList mime, body := f }

/-! ## `serveMap` -/

/-- The call `serveMap` ends in, with its arguments. -/
inductive MapCall
  | handleMetadata (fPath : GoString)
  | handleMBTiles (filename : GoString) (z x y : Int)
  | serveRawFile (filename : GoString)
  | executeTemplate (rootPath file : GoString)
  | notFound
deriving DecidableEq

/-- The coordinate branch of `serveMap`: `some` when the branch returns. -/
def tileCall (relativePath : GoString) : Option MapCall :=
  let parts := splitSlash relativePath
  let n := parts.length
  if n ≥ 4 then
    match atoi (parts.getD (n - 3) []), atoi (parts.getD (n - 2) []), atoi (parts.getD (n - 1) []) with
    | some z, some x, some y =>
      let filename := joinSlash (parts.take (n - 3))
      if hasSuffix filename ".mbtiles".toList then some (.handleMBTiles filename z x y)
      else none
    | _, _, _ => none
  else none

/-- The control flow of `serveMap`: which handler it calls for `relativePath`. -/
def serveMapCall (m : Maps) (r : Request) (relativePath : GoString) : MapCall :=
  if hasSuffix relativePath "/metadata.json".toList then
    .handleMetadata (trimSuffix relativePath "/metadata.json".toList)
  else
    match tileCall relativePath with
    | some c => c
    | none =>
      if hasSuffix relativePath ".mbtiles".toList || hasSuffix relativePath ".pmtiles".toList then
        if hasSuffix relativePath ".pmtiles".toList && decide (r.range ≠ []) then
          .serveRawFile relativePath
        else if contains r.accept "text/html".toList then
          .executeTemplate (m.webPath ++ "web".toList) (m.webPath ++ "map/".toList ++ relativePath)
        else .serveRawFile relativePath
      else .notFound

/-- Carrying out the call chosen by `serveMapCall`. -/
def runMapCall (m : Maps) (env : Env) (r : Request) : MapCall → Option Response
  | .handleMetadata fPath => some (handleMetadata m env fPath)
  | .handleMBTiles filename z x y => handleMBTiles m env filename z x y
  | .serveRawFile filename => some (serveRawFile m env r filename)
  | .executeTemplate rootPath file =>
    some { status := 200
           header := headerSet [] "Content-Type".toList "text/html; charset=utf-8".toList
           body := m.templates rootPath file }
  | .notFound => some httpNotFound

/-- The method `serveMap`. -/
def serveMap (m : Maps) (env : Env) (r : Request) (relativePath : GoString) : Option Response :=
  runMapCall m env r (serveMapCall m r relativePath)

/-! ## `ServeHTTP` -/

/-- Go `subtle.ConstantTimeCompare`: 1 when the two slices are equal, 0 otherwise. -/
def constantTimeCompare (x y : GoString) : Nat := if x = y then 1 else 0

/-- The response `checkAuth` writes before it returns false. -/
def unauthorized : Response :=
  httpError (headerSet [] "WWW-Authenticate".toList "Basic realm=\"Maps\"".toList)
    "Unauthorized".toList 401

/-- The method `checkAuth`: its result, and what it wrote when the result is false. -/
def checkAuth (m : Maps) (r : Request) : Bool × Option Response :=
  let auth := r.authorization
  if hasPrefix auth "Basic ".toList && constantTimeCompare (auth.drop 6) m.webAuth == 1 then
    (true, none)
  else (false, some unauthorized)

/-- The route logic of `ServeHTTP`: everything after the authentication gate. -/
def route (m : Maps) (env : Env) (r : Request) : Option Response :=
  if !hasPrefix r.path m.webPath then some httpNotFound
  else
    let reqPath := trimPrefix r.path m.webPath
    if reqPath = [] ∨ reqPath = ['/'] then
      if m.isFile then some (env.redirect r (m.webPath ++ "map/".toList ++ m.fileName) 302)
      else
        some (httpError []
          ("Map server running. Access /".toList ++ m.webPath ++ "map/\x7bfilename\x7d".toList) 200)
    else if hasPrefix reqPath "web/".toList then
      some (serveStatic env (trimPrefix reqPath "web/".toList))
    else if hasPrefix reqPath "map/".toList then
      serveMap m env r (trimPrefix reqPath "map/".toList)
    else some httpNotFound

/-- The method `ServeHTTP`; `none` is a run-time panic in a handler. -/
def ServeHTTP (m : Maps) (env : Env) (r : Request) : Option Response :=
  if m.webAuth ≠ [] then
    match checkAuth m r with
    | (false, w) => w
    | (true, _) => route m env r
  else route m env r

/-! ## Test fixtures -/

/-- The row `setupTestDB` inserts: zoom 1, column 0, TMS row 1, data `89504E47`. -/
def testRow : TileRow :=
  { zoom_level := 1, tile_column := 0, tile_row := 1, tile_data := [0x89, 0x50, 0x4E, 0x47] }

/-- An environment in which every path exists and holds the database `rows`,
with metadata `name`, `format` as in `setupTestDB`. -/
def envOf (tiles : Option (List TileRow)) : Env :=
  { stat := fun _ => .ok
    sqlOpen := fun _ => true
    tiles := fun _ => tiles
    metadata := fun _ => some [("name".toList, "Test Map".toList), ("format".toList, "png".toList)]
    encodeMetadata := fun _ => []
    serveFile := fun _ _ => { status := 200, header := [], body := [] }
    redirect := fun _ target code =>
      { status := code, header := [("Location".toList, target)], body := [] }
    asset := fun _ => none }

/-- A directory-mode server rooted at `root`, without authentication. -/
def dirServer (root : GoString) : Maps :=
  { webPath := "/maps/".toList, filePath := root, webAuth := [], isFile := false,
    fileName := [], templates := fun _ _ => [] }

/-- A single-file server for `dir/name`, without authentication. -/
def fileServer (dir name : GoString) : Maps :=
  { webPath := "/maps/".toList, filePath := dir, webAuth := [], isFile := true,
    fileName := name, templates := fun _ _ => [] }

/-- The server of `TestAuthentication`: directory mode with secret `dXNlcjpwYXNz`. -/
def authServer : Maps :=
  { webPath := "/maps/".toList, filePath := "/data/maps".toList, webAuth := "dXNlcjpwYXNz".toList,
    isFile := false, fileName := [], templates := fun _ _ => [] }

/-- A request for `path` with no headers. -/
def get (path : GoString) : Request :=
  { path := path, authorization := [], accept := [], range := [] }

/-! ## Theorems -/

theorem hasPrefix_iff (s p : GoString) : hasPrefix s p = true ↔ ∃ t, s = p ++ t := by
  unfold hasPrefix
  rw [List.isPrefixOf_iff_prefix]
  constructor
  · rintro ⟨t, ht⟩; exact ⟨t, ht.symm⟩
  · rintro ⟨t, ht⟩; exact ⟨t, ht.symm⟩

theorem drop_basic (t : GoString) : List.drop 6 ("Basic ".toList ++ t) = t := by
  show List.drop 6 (['B', 'a', 's', 'i', 'c', ' '] ++ t) = t
  rfl

theorem checkAuth_eq (m : Maps) (r : Request) :
    checkAuth m r =
      if hasPrefix r.authorization "Basic ".toList = true ∧ List.drop 6 r.authorization = m.webAuth
      then (true, none) else (false, some unauthorized) := by
  unfold checkAuth constantTimeCompare
  dsimp only
  by_cases hp : hasPrefix r.authorization "Basic ".toList = true
  · rw [hp]
    by_cases he : List.drop 6 r.authorization = m.webAuth
    · simp [he]
    · simp [he]
  · rw [Bool.not_eq_true] at hp
    rw [hp]
    simp

theorem checkAuth_true_iff (m : Maps) (r : Request) :
    (checkAuth m r).1 = true ↔ r.authorization = "Basic ".toList ++ m.webAuth := by
  rw [checkAuth_eq]
  constructor
  · intro h
    by_cases hc : hasPrefix r.authorization "Basic ".toList = true ∧
        List.drop 6 r.authorization = m.webAuth
    · obtain ⟨t, ht⟩ := (hasPrefix_iff _ _).1 hc.1
      have he := hc.2
      rw [ht, drop_basic] at he
      rw [ht, he]
    · rw [if_neg hc] at h
      exact absurd h (by decide)
  · intro h
    have hc : hasPrefix r.authorization "Basic ".toList = true ∧
        List.drop 6 r.authorization = m.webAuth :=
      ⟨(hasPrefix_iff _ _).2 ⟨m.webAuth, h⟩, by rw [h, drop_basic]⟩
    rw [if_pos hc]

theorem checkAuth_false_writes (m : Maps) (r : Request) (h : (checkAuth m r).1 = false) :
    checkAuth m r = (false, some unauthorized) := by
  rw [checkAuth_eq] at h ⊢
  by_cases hc : hasPrefix r.authorization "Basic ".toList = true ∧
      List.drop 6 r.authorization = m.webAuth
  · rw [if_pos hc] at h
    exact absurd h (by decide)
  · rw [if_neg hc]

/-- C3: with a non-empty secret configured, `checkAuth` lets a request through
exactly when its Authorization header is `Basic ` followed by the secret; then
`ServeHTTP` is the route logic, and in every other case the response is the
401 with `WWW-Authenticate: Basic realm="Maps"`, whatever the path. -/
theorem auth_gate (m : Maps) (env : Env) (r : Request) (h : m.webAuth ≠ []) :
    ((checkAuth m r).1 = true ↔ r.authorization = "Basic ".toList ++ m.webAuth) ∧
    (r.authorization = "Basic ".toList ++ m.webAuth → ServeHTTP m env r = route m env r) ∧
    (r.authorization ≠ "Basic ".toList ++ m.webAuth → ServeHTTP m env r = some unauthorized) ∧
    unauthorized.status = 401 ∧
    headerGet unauthorized.header "WWW-Authenticate".toList = "Basic realm=\"Maps\"".toList := by
  refine ⟨checkAuth_true_iff m r, ?_, ?_, by decide, by decide⟩
  · intro ha
    have hc := (checkAuth_true_iff m r).2 ha
    unfold ServeHTTP
    rw [if_pos h]
    split
    · rename_i w hw; rw [hw] at hc; simp at hc
    · rfl
  · intro ha
    have hc : (checkAuth m r).1 = false := by
      cases hb : (checkAuth m r).1
      · rfl
      · exact absurd ((checkAuth_true_iff m r).1 hb) ha
    unfold ServeHTTP
    rw [if_pos h, checkAuth_false_writes m r hc]

/-- C3, on the test's secret: the matching header reaches the route logic (the
directory-mode information page), no header gives the 401. -/
theorem auth_gate_witness :
    ServeHTTP authServer (envOf none)
        { path := "/maps/".toList, authorization := "Basic dXNlcjpwYXNz".toList,
          accept := [], range := [] }
      = route authServer (envOf none)
        { path := "/maps/".toList, authorization := "Basic dXNlcjpwYXNz".toList,
          accept := [], range := [] } ∧
    ServeHTTP authServer (envOf none) (get "/maps/".toList) = some unauthorized :=
  ⟨(auth_gate authServer (envOf none)
      { path := "/maps/".toList, authorization := "Basic dXNlcjpwYXNz".toList,
        accept := [], range := [] } (by decide)).2.1 (by decide),
   (auth_gate authServer (envOf none) (get "/maps/".toList) (by decide)).2.2.1 (by decide)⟩

/-- C6: in single-file mode `resolveFilePath` succeeds exactly on the configured
file name, always with `filepath.Join(filePath, fileName)`; on any other name it
fails, and every caller answers that failure with the 404 `File not found` it
also gives for a file that does not exist. -/
theorem single_file_mode (m : Maps) (env : Env) (reqFile : GoString) (h : m.isFile = true) :
    (∀ p, resolveFilePath m env reqFile = .ok p ↔
      reqFile = m.fileName ∧ p = filepathJoin m.filePath m.fileName) ∧
    (reqFile ≠ m.fileName →
      resolveFilePath m env reqFile = .error .fileMismatch ∧
      handleMetadata m env reqFile = fileNotFound ∧
      (∀ z x y, handleMBTiles m env reqFile z x y = some fileNotFound) ∧
      (∀ r, serveRawFile m env r reqFile = fileNotFound)) ∧
    (∀ (m2 : Maps) (env2 : Env) (f : GoString), resolveFilePath m2 env2 f = .error .notFound →
      handleMetadata m2 env2 f = fileNotFound ∧
      (∀ z x y, handleMBTiles m2 env2 f z x y = some fileNotFound) ∧
      (∀ r, serveRawFile m2 env2 r f = fileNotFound)) ∧
    fileNotFound.status = 404 ∧ fileNotFound.body = strBytes "File not found\n".toList := by
  refine ⟨?_, ?_, ?_, by decide, by decide⟩
  · intro p
    unfold resolveFilePath
    rw [if_pos h]
    by_cases hr : reqFile = m.fileName
    · simp only [hr, ne_eq, not_true_eq_false, if_false, true_and]
      constructor
      · intro hp; injection hp with hp; exact hp.symm
      · intro hp; rw [hp]
    · simp [hr]
  · intro hr
    have hres : resolveFilePath m env reqFile = .error .fileMismatch := by
      unfold resolveFilePath
      rw [if_pos h, if_pos hr]
    refine ⟨hres, ?_, ?_, ?_⟩
    · unfold handleMetadata; rw [hres]
    · intro z x y; unfold handleMBTiles; rw [hres]
    · intro r; unfold serveRawFile; rw [hres]
  · intro m2 env2 f hres
    refine ⟨?_, ?_, ?_⟩
    · unfold handleMetadata; rw [hres]
    · intro z x y; unfold handleMBTiles; rw [hres]
    · intro r; unfold serveRawFile; rw [hres]

/-- C6, on a single-file server for `/data/world.mbtiles`: the configured name
resolves to that path, `other.mbtiles` is a mismatch. -/
theorem single_file_mode_witness :
    resolveFilePath (fileServer "/data".toList "world.mbtiles".toList) (envOf none)
        "world.mbtiles".toList = .ok "/data/world.mbtiles".toList ∧
    resolveFilePath (fileServer "/data".toList "world.mbtiles".toList) (envOf none)
        "other.mbtiles".toList = .error .fileMismatch :=
  ⟨((single_file_mode (fileServer "/data".toList "world.mbtiles".toList) (envOf none)
      "world.mbtiles".toList rfl).1 "/data/world.mbtiles".toList).2 ⟨rfl, by decide⟩,
   ((single_file_mode (fileServer "/data".toList "world.mbtiles".toList) (envOf none)
      "other.mbtiles".toList rfl).2.1 (by decide)).1⟩

/-- C1: the prefix test of `resolveFilePath` is on characters, not on path
elements. With root `/data/maps`, `../../etc/passwd` is refused, but
`../maps2/x.mbtiles` cleans to `/data/maps2/x.mbtiles`, a sibling directory that
starts with the root's name, and is returned as resolved. -/
theorem sibling_directory_resolves :
    resolveFilePath (dirServer "/data/maps".toList) (envOf none) "../../etc/passwd".toList
      = .error .accessDenied ∧
    filepathJoin "/data/maps".toList "../maps2/x.mbtiles".toList = "/data/maps2/x.mbtiles".toList ∧
    resolveFilePath (dirServer "/data/maps".toList) (envOf none) "../maps2/x.mbtiles".toList
      = .ok "/data/maps2/x.mbtiles".toList := by
  decide

theorem tmsRow_eq (z y : Int) (hz : 0 ≤ z) (hz2 : z ≤ 63)
    (hr : inInt64 (2 ^ z.toNat - 1 - y)) : tmsRow z y = some (2 ^ z.toNat - 1 - y) := by
  obtain ⟨n, rfl⟩ := Int.eq_ofNat_of_zero_le hz
  have hn : n ≤ 63 := by omega
  unfold inInt64 at hr
  unfold tmsRow shiftLeftOne wrap64
  rw [if_neg (by omega), if_pos (by omega)]
  simp only [Int.toNat_ofNat] at hr ⊢
  congr 1
  interval_cases n <;> norm_num at hr ⊢ <;> omega

theorem handleMBTiles_lookup (m : Maps) (env : Env) (filename absPath : GoString)
    (z x y tmsY : Int) (hres : resolveFilePath m env filename = .ok absPath)
    (hopen : env.sqlOpen absPath = true) (hrow : tmsRow z y = some tmsY) :
    handleMBTiles m env filename z x y = some (lookupResponse env absPath z x tmsY) := by
  unfold handleMBTiles
  rw [hres]
  simp only [hopen, hrow, Bool.not_true, Bool.false_eq_true, if_false]

/-- C2, for zoom levels 0 to 63: with `0 ≤ y < 2^z` the row `handleMBTiles`
computes is `2^z - 1 - y`, the lookup is made at `(z, x, 2^z - 1 - y)`, and when
the archive holds a row there the response is 200 with that row's blob as body. -/
theorem tms_row_lookup (z x y : Int) (hz : 0 ≤ z) (hz2 : z ≤ 63) (hy : 0 ≤ y)
    (hy2 : y < 2 ^ z.toNat) :
    tmsRow z y = some (2 ^ z.toNat - 1 - y) ∧
    ∀ (m : Maps) (env : Env) (filename absPath : GoString) (rows : List TileRow) (t : TileRow),
      resolveFilePath m env filename = .ok absPath → env.sqlOpen absPath = true →
      env.tiles absPath = some rows →
      rows.find? (fun t => decide (t.zoom_level = z ∧ t.tile_column = x ∧
        t.tile_row = 2 ^ z.toNat - 1 - y)) = some t →
      handleMBTiles m env filename z x y = some (lookupResponse env absPath z x (2 ^ z.toNat - 1 - y)) ∧
      handleMBTiles m env filename z x y = some (tileResponse t.tile_data) ∧
      (tileResponse t.tile_data).status = 200 ∧ (tileResponse t.tile_data).body = t.tile_data := by
  have hrow : tmsRow z y = some (2 ^ z.toNat - 1 - y) := by
    apply tmsRow_eq z y hz hz2
    unfold inInt64
    have h1 : (2 : Int) ^ z.toNat ≤ 2 ^ 63 :=
      pow_le_pow_right₀ (by norm_num) (by omega)
    constructor <;> omega
  refine ⟨hrow, ?_⟩
  intro m env filename absPath rows t hres hopen htiles hfind
  have hl := handleMBTiles_lookup m env filename absPath z x y _ hres hopen hrow
  refine ⟨hl, ?_, rfl, rfl⟩
  rw [hl]
  unfold lookupResponse queryTile
  rw [htiles]
  simp only [hfind]

/-- C2, on the test archive: request `1/0/0` computes row 1 and returns the blob
`89504E47` stored at `(1, 0, 1)`. -/
theorem tms_row_lookup_witness :
    tmsRow 1 0 = some 1 ∧
    handleMBTiles (dirServer "/data/maps".toList) (envOf (some [testRow])) "world.mbtiles".toList 1 0 0
      = some (tileResponse [0x89, 0x50, 0x4E, 0x47]) :=
  ⟨(tms_row_lookup 1 0 0 (by decide) (by decide) (by decide) (by decide)).1,
   ((tms_row_lookup 1 0 0 (by decide) (by decide) (by decide) (by decide)).2
      (dirServer "/data/maps".toList) (envOf (some [testRow])) "world.mbtiles".toList
      "/data/maps/world.mbtiles".toList [testRow] testRow (by decide) rfl rfl (by decide)).2.1⟩

/-- C2 fails at zoom 64: `1 << 64` is 0 in 64-bit arithmetic, so for `y = 0` the
row computed is `-1`, not `2^64 - 1`, and request `64/0/0` returns the blob
stored at `(64, 0, -1)`. -/
theorem tms_row_zoom_64 :
    tmsRow 64 0 = some (-1) ∧ (-1 : Int) ≠ 2 ^ 64 - 1 - 0 ∧
    handleMBTiles (dirServer "/data/maps".toList)
        (envOf (some [{ zoom_level := 64, tile_column := 0, tile_row := -1, tile_data := [7] }]))
        "world.mbtiles".toList 64 0 0
      = some (tileResponse [7]) := by
  decide

theorem tmsRow_some (z y : Int) (hz : 0 ≤ z) : ∃ tmsY, tmsRow z y = some tmsY := by
  unfold tmsRow shiftLeftOne
  rw [if_neg (by omega)]
  by_cases h : z < 64
  · rw [if_pos h]
    exact ⟨_, rfl⟩
  · rw [if_neg h]
    exact ⟨_, rfl⟩

/-- C4: for every tile request with zoom `z ≥ 0` whose archive resolves and
opens, when the lookup `handleMBTiles` makes, at column `x` and the row it
computes from `z` and `y`, finds no row in the `tiles` table, the response is
the 404 `Tile not found`; that row is `2^z - 1 - y` whenever `z ≤ 63` and
`2^z - 1 - y` is within the 64-bit range. -/
theorem missing_tile_not_found (m : Maps) (env : Env) (filename absPath : GoString)
    (rows : List TileRow) (z x y : Int) (hz : 0 ≤ z)
    (hres : resolveFilePath m env filename = .ok absPath) (hopen : env.sqlOpen absPath = true)
    (htiles : env.tiles absPath = some rows)
    (hnone : ∀ tmsY, tmsRow z y = some tmsY →
      ∀ t ∈ rows, ¬ (t.zoom_level = z ∧ t.tile_column = x ∧ t.tile_row = tmsY)) :
    handleMBTiles m env filename z x y = some (httpError [] "Tile not found".toList 404) ∧
    (httpError [] "Tile not found".toList 404).status = 404 ∧
    (z ≤ 63 → inInt64 (2 ^ z.toNat - 1 - y) → tmsRow z y = some (2 ^ z.toNat - 1 - y)) := by
  refine ⟨?_, rfl, fun hz2 hr => tmsRow_eq z y hz hz2 hr⟩
  obtain ⟨tmsY, hrow⟩ := tmsRow_some z y hz
  rw [handleMBTiles_lookup m env filename absPath z x y tmsY hres hopen hrow]
  unfold lookupResponse queryTile
  rw [htiles]
  have hf : rows.find? (fun t => decide (t.zoom_level = z ∧ t.tile_column = x ∧
      t.tile_row = tmsY)) = none := by
    rw [List.find?_eq_none]
    intro t ht
    simpa using hnone tmsY hrow t ht
  simp only [hf]

/-- C4, on the test archive, which holds only row `(1, 0, 1)`: requests `1/0/99`
and `64/0/0` find no row and get the 404 `Tile not found`. -/
theorem missing_tile_not_found_witness :
    handleMBTiles (dirServer "/data/maps".toList) (envOf (some [testRow])) "world.mbtiles".toList 1 0 99
      = some (httpError [] "Tile not found".toList 404) ∧
    handleMBTiles (dirServer "/data/maps".toList) (envOf (some [testRow])) "world.mbtiles".toList 64 0 0
      = some (httpError [] "Tile not found".toList 404) :=
  ⟨(missing_tile_not_found (dirServer "/data/maps".toList) (envOf (some [testRow]))
      "world.mbtiles".toList "/data/maps/world.mbtiles".toList [testRow] 1 0 99
      (by decide) (by decide) rfl rfl
      (fun tmsY h => by
        have h2 : tmsRow 1 99 = some (-98) := by decide
        rw [h2] at h
        injection h with h
        subst h
        decide)).1,
   (missing_tile_not_found (dirServer "/data/maps".toList) (envOf (some [testRow]))
      "world.mbtiles".toList "/data/maps/world.mbtiles".toList [testRow] 64 0 0
      (by decide) (by decide) rfl rfl
      (fun tmsY h => by
        have h2 : tmsRow 64 0 = some (-1) := by decide
        rw [h2] at h
        injection h with h
        subst h
        decide)).1⟩

theorem tileResponse_gzip_iff (data : Bytes) :
    headerGet (tileResponse data).header "Content-Encoding".toList = "gzip".toList ↔
      2 < data.length ∧ data[0]? = some 0x1f ∧ data[1]? = some 0x8b := by
  unfold tileResponse
  by_cases hc : (decide (data.length > 2) && data[0]? == some 0x1f && data[1]? == some 0x8b) = true
  · simp only [hc, if_true]
    constructor
    · intro _
      simpa [Bool.and_eq_true, and_assoc] using hc
    · intro _; decide
  · simp only [hc]
    constructor
    · intro h; exact absurd h (by decide)
    · intro h
      exact absurd (by simpa [Bool.and_eq_true, and_assoc] using h) hc

theorem tileResponse_fixed_headers (data : Bytes) :
    headerGet (tileResponse data).header "Content-Type".toList = "application/x-protobuf".toList ∧
    headerGet (tileResponse data).header "Access-Control-Allow-Origin".toList = "*".toList := by
  unfold tileResponse
  by_cases hc : (decide (data.length > 2) && data[0]? == some 0x1f && data[1]? == some 0x8b) = true
  · simp only [hc, if_true]; decide
  · simp only [hc]; decide

/-- C5: the gzip test of `handleMBTiles` asks for more than two bytes. The
two-byte blob `1F 8B` is returned with `Content-Type` and
`Access-Control-Allow-Origin` but without `Content-Encoding`; the three-byte
blob `1F 8B 08` gets `Content-Encoding: gzip`, and `89 50 4E 47` does not. -/
theorem gzip_magic_two_bytes :
    handleMBTiles (dirServer "/data/maps".toList)
        (envOf (some [{ zoom_level := 1, tile_column := 0, tile_row := 1, tile_data := [0x1f, 0x8b] }]))
        "world.mbtiles".toList 1 0 0
      = some { status := 200
               header := [("Access-Control-Allow-Origin".toList, "*".toList),
                          ("Content-Type".toList, "application/x-protobuf".toList)]
               body := [0x1f, 0x8b] } ∧
    headerGet (tileResponse [0x1f, 0x8b]).header "Content-Encoding".toList = [] ∧
    headerGet (tileResponse [0x1f, 0x8b, 0x08]).header "Content-Encoding".toList = "gzip".toList ∧
    headerGet (tileResponse [0x89, 0x50, 0x4E, 0x47]).header "Content-Encoding".toList = [] := by
  decide

/-- C8: `handleMBTiles` tests the lookup's error against `sql.ErrNoRows` only.
On an archive without a `tiles` table the request `1/0/0` is answered 200 with
the tile headers and an empty body, while `handleMetadata` answers a failed
query with 500 and a failed `sql.Open` is a 500 in both. -/
theorem failed_query_answers_200 :
    handleMBTiles (dirServer "/data/maps".toList) (envOf none) "world.mbtiles".toList 1 0 0
      = some { status := 200
               header := [("Access-Control-Allow-Origin".toList, "*".toList),
                          ("Content-Type".toList, "application/x-protobuf".toList)]
               body := [] } ∧
    (handleMetadata (dirServer "/data/maps".toList)
        { envOf none with metadata := fun _ => none } "world.mbtiles".toList).status = 500 ∧
    (handleMBTiles (dirServer "/data/maps".toList)
        { envOf none with sqlOpen := fun _ => false } "world.mbtiles".toList 1 0 0).map
        (fun w => w.status) = some 500 := by
  decide

/-- C10: `serveMap` passes a negative zoom on. The remainder naming
`world.mbtiles` with coordinates `-1`, `0`, `0` is dispatched as
`handleMBTiles("world.mbtiles", -1, 0, 0)`, where `1 << z` panics once the
archive is resolved and opened. -/
theorem negative_zoom_dispatched :
    serveMapCall (dirServer "/data/maps".toList) (get "/maps/map/world.mbtiles/-1/0/0".toList)
        "world.mbtiles/-1/0/0".toList
      = .handleMBTiles "world.mbtiles".toList (-1) 0 0 ∧
    shiftLeftOne (-1) = none ∧
    handleMBTiles (dirServer "/data/maps".toList) (envOf (some [testRow]))
        "world.mbtiles".toList (-1) 0 0 = none ∧
    ServeHTTP (dirServer "/data/maps".toList) (envOf (some [testRow]))
        (get "/maps/map/world.mbtiles/-1/0/0".toList) = none := by
  decide

/-- C9: the viewer branch of `serveMap` does not call `resolveFilePath`. With
`Accept: text/html`, the whole-archive requests for `other.mbtiles` in
single-file mode and for `../../etc/x.mbtiles` in directory mode, both refused
by `resolveFilePath`, get the viewer page with status 200; the same names
without that header, with a `Range` header on a `.pmtiles` name, as a metadata
request or as a tile request go through `resolveFilePath` and get the 404
`File not found`, and `../../etc/passwd` is a plain 404. -/
theorem viewer_skips_sandbox :
    resolveFilePath (fileServer "/data".toList "world.mbtiles".toList) (envOf none)
        "other.mbtiles".toList = .error .fileMismatch ∧
    (serveMap (fileServer "/data".toList "world.mbtiles".toList) (envOf none)
        { path := "/maps/map/other.mbtiles".toList, authorization := [],
          accept := "text/html".toList, range := [] }
        "other.mbtiles".toList).map (fun w => w.status) = some 200 ∧
    serveMap (fileServer "/data".toList "world.mbtiles".toList) (envOf none)
        (get "/maps/map/other.mbtiles".toList) "other.mbtiles".toList = some fileNotFound ∧
    serveMap (fileServer "/data".toList "world.mbtiles".toList) (envOf none)
        { path := "/maps/map/other.pmtiles".toList, authorization := [],
          accept := "text/html".toList, range := "bytes=0-1".toList }
        "other.pmtiles".toList = some fileNotFound ∧
    serveMap (fileServer "/data".toList "world.mbtiles".toList) (envOf none)
        { path := "/maps/map/other.mbtiles/metadata.json".toList, authorization := [],
          accept := "text/html".toList, range := [] }
        "other.mbtiles/metadata.json".toList = some fileNotFound ∧
    serveMap (fileServer "/data".toList "world.mbtiles".toList) (envOf none)
        { path := "/maps/map/other.mbtiles/1/0/0".toList, authorization := [],
          accept := "text/html".toList, range := [] }
        "other.mbtiles/1/0/0".toList = some fileNotFound ∧
    resolveFilePath (dirServer "/data/maps".toList) (envOf none)
        "../../etc/x.mbtiles".toList = .error .accessDenied ∧
    (serveMap (dirServer "/data/maps".toList) (envOf none)
        { path := "/maps/map/../../etc/x.mbtiles".toList, authorization := [],
          accept := "text/html".toList, range := [] }
        "../../etc/x.mbtiles".toList).map (fun w => w.status) = some 200 ∧
    serveMap (dirServer "/data/maps".toList) (envOf none)
        (get "/maps/map/../../etc/x.mbtiles".toList) "../../etc/x.mbtiles".toList
      = some fileNotFound ∧
    serveMap (dirServer "/data/maps".toList) (envOf none)
        (get "/maps/map/../../etc/passwd".toList) "../../etc/passwd".toList
      = some httpNotFound ∧
    fileNotFound.status = 404 := by
  decide

theorem splitSlash_ne_nil (s : GoString) : splitSlash s ≠ [] := by
  cases s with
  | nil => simp [splitSlash]
  | cons c cs =>
    unfold splitSlash
    split
    · simp
    · split <;> simp

theorem joinSlash_cons (p : GoString) (ps : List GoString) (h : ps ≠ []) :
    joinSlash (p :: ps) = p ++ '/' :: joinSlash ps := by
  cases ps with
  | nil => exact absurd rfl h
  | cons q qs => rfl

theorem joinSlash_splitSlash (s : GoString) : joinSlash (splitSlash s) = s := by
  induction s with
  | nil => rfl
  | cons c cs ih =>
    unfold splitSlash
    by_cases hc : c = '/'
    · rw [if_pos hc, joinSlash_cons _ _ (splitSlash_ne_nil cs), ih, hc]
      rfl
    · rw [if_neg hc]
      cases hs : splitSlash cs with
      | nil => exact absurd hs (splitSlash_ne_nil cs)
      | cons seg segs =>
        rw [hs] at ih
        simp only
        cases segs with
        | nil =>
          simp only [joinSlash] at ih ⊢
          rw [ih]
        | cons q qs =>
          rw [joinSlash_cons _ _ (by simp)] at ih ⊢
          rw [List.cons_append, ih]

theorem joinSlash_concat_suffix (pre : List GoString) (l : GoString) :
    ∃ t, joinSlash (pre ++ [l]) = t ++ l := by
  induction pre with
  | nil => exact ⟨[], rfl⟩
  | cons p ps ih =>
    obtain ⟨t, ht⟩ := ih
    refine ⟨p ++ '/' :: t, ?_⟩
    rw [List.cons_append, joinSlash_cons _ _ (by simp), ht]
    simp

theorem getLast_of_split (s : GoString) (pre : List GoString) (l : GoString)
    (h : splitSlash s = pre ++ [l]) (hl : l ≠ []) : s.getLast? = l.getLast? := by
  obtain ⟨t, ht⟩ := joinSlash_concat_suffix pre l
  rw [← joinSlash_splitSlash s, h, ht]
  exact List.getLast?_append_of_ne_nil t hl

theorem getLast_of_hasSuffix (s suf : GoString) (h : hasSuffix s suf = true) (hne : suf ≠ []) :
    s.getLast? = suf.getLast? := by
  unfold hasSuffix at h
  rw [List.isSuffixOf_iff_suffix] at h
  obtain ⟨t, ht⟩ := h
  rw [← ht]
  exact List.getLast?_append_of_ne_nil t hne

theorem getLast_digit_of_all (ds : GoString) (hne : ds ≠ []) (hall : ds.all isDigit = true) :
    ∃ c, ds.getLast? = some c ∧ isDigit c = true := by
  refine ⟨ds.getLast hne, List.getLast?_eq_getLast ds hne, ?_⟩
  rw [List.all_eq_true] at hall
  exact hall _ (List.getLast_mem hne)

theorem atoi_getLast (t : GoString) (v : Int) (h : atoi t = some v) :
    ∃ c, t.getLast? = some c ∧ isDigit c = true := by
  unfold atoi at h
  dsimp only at h
  generalize hds : (if t.head? = some '-' ∨ t.head? = some '+' then t.tail else t) = ds at h
  by_cases hne : ds = []
  · rw [if_pos hne] at h
    exact absurd h (by simp)
  · rw [if_neg hne] at h
    by_cases hall : ds.all isDigit = true
    · obtain ⟨c, hc, hd⟩ := getLast_digit_of_all ds hne hall
      refine ⟨c, ?_, hd⟩
      rw [← hc]
      by_cases hsign : t.head? = some '-' ∨ t.head? = some '+'
      · rw [if_pos hsign] at hds
        cases t with
        | nil => rw [← hds]; rfl
        | cons a as =>
          simp only [List.tail_cons] at hds
          subst hds
          cases as with
          | nil => exact absurd rfl hne
          | cons b bs => rfl
      · rw [if_neg hsign] at hds
        rw [hds]
    · rw [if_neg hall] at h
      exact absurd h (by simp)

theorem exists_last_three (l : List GoString) (h : 3 ≤ l.length) :
    ∃ pre a b c, l = pre ++ [a, b, c] := by
  have hd : (l.drop (l.length - 3)).length = 3 := by
    rw [List.length_drop]; omega
  refine ⟨l.take (l.length - 3), ?_⟩
  match hm : l.drop (l.length - 3), hd with
  | [a, b, c], _ =>
    refine ⟨a, b, c, ?_⟩
    rw [← hm, List.take_append_drop]

theorem tileCall_of_split (rel : GoString) (pre : List GoString) (sz sx sy : GoString)
    (h : splitSlash rel = pre ++ [sz, sx, sy]) :
    tileCall rel =
      if pre = [] then none
      else
        match atoi sz, atoi sx, atoi sy with
        | some z, some x, some y =>
          if hasSuffix (joinSlash pre) ".mbtiles".toList then
            some (.handleMBTiles (joinSlash pre) z x y)
          else none
        | _, _, _ => none := by
  unfold tileCall
  dsimp only
  rw [h]
  have hlen : (pre ++ [sz, sx, sy]).length = pre.length + 3 := by simp
  rw [hlen]
  by_cases hp : pre = []
  · subst hp
    simp
  · have hpos : 0 < pre.length := List.length_pos.2 hp
    rw [if_pos (by omega), if_neg hp]
    have e3 : pre.length + 3 - 3 = pre.length := by omega
    have e2 : pre.length + 3 - 2 = pre.length + 1 := by omega
    have e1 : pre.length + 3 - 1 = pre.length + 2 := by omega
    rw [e3, e2, e1]
    have g3 : (pre ++ [sz, sx, sy]).getD pre.length [] = sz := by
      rw [List.getD_eq_getElem?_getD, List.getElem?_append_right (le_refl _)]
      simp
    have g2 : (pre ++ [sz, sx, sy]).getD (pre.length + 1) [] = sx := by
      rw [List.getD_eq_getElem?_getD, List.getElem?_append_right (by omega)]
      simp
    have g1 : (pre ++ [sz, sx, sy]).getD (pre.length + 2) [] = sy := by
      rw [List.getD_eq_getElem?_getD, List.getElem?_append_right (by omega)]
      simp
    rw [g3, g2, g1, List.take_left]

theorem hasSuffix_false_of_int_last (rel : GoString) (pre : List GoString)
    (sz sx sy suf : GoString) (y : Int) (c : Char)
    (h : splitSlash rel = pre ++ [sz, sx, sy]) (hy : atoi sy = some y)
    (hsuf : suf.getLast? = some c) (hc : isDigit c = false) : hasSuffix rel suf = false := by
  obtain ⟨d, hd, hdig⟩ := atoi_getLast sy y hy
  have hne : sy ≠ [] := by
    intro he; rw [he] at hd; exact absurd hd (by simp)
  have h2 : splitSlash rel = (pre ++ [sz, sx]) ++ [sy] := by rw [h]; simp
  have hl := getLast_of_split rel _ sy h2 hne
  rw [hd] at hl
  cases hs : hasSuffix rel suf with
  | false => rfl
  | true =>
    have hsn : suf ≠ [] := by
      intro he; rw [he] at hsuf; exact absurd hsuf (by simp)
    have := getLast_of_hasSuffix rel suf hs hsn
    rw [hl, hsuf] at this
    injection this with hcd
    rw [hcd, hc] at hdig
    exact absurd hdig (by decide)

theorem tileCall_short (rel : GoString) (h : ¬ 3 ≤ (splitSlash rel).length) :
    tileCall rel = none := by
  unfold tileCall
  dsimp only
  rw [if_neg (by omega)]

/-- C7: `serveMap` calls `handleMBTiles(filename, z, x, y)` exactly when the
remainder splits on `/` into at least four segments of which the last three
parse as the integers `z`, `x`, `y` and the others, joined by `/`, are
`filename` and end in `.mbtiles`, whatever the request headers; the response is
then that of `handleMBTiles` on these arguments. When the last three segments
parse as integers and the joined prefix does not end in `.mbtiles`, the
remainder is not-found. -/
theorem tile_route (m : Maps) (env : Env) (r : Request) (rel : GoString) :
    (∀ f z x y, serveMapCall m r rel = .handleMBTiles f z x y ↔
      ∃ pre sz sx sy, splitSlash rel = pre ++ [sz, sx, sy] ∧ pre ≠ [] ∧
        atoi sz = some z ∧ atoi sx = some x ∧ atoi sy = some y ∧
        f = joinSlash pre ∧ hasSuffix f ".mbtiles".toList = true) ∧
    (∀ f z x y, serveMapCall m r rel = .handleMBTiles f z x y →
      serveMap m env r rel = handleMBTiles m env f z x y) ∧
    (∀ pre sz sx sy z x y, splitSlash rel = pre ++ [sz, sx, sy] →
      atoi sz = some z → atoi sx = some x → atoi sy = some y →
      hasSuffix (joinSlash pre) ".mbtiles".toList = false →
      serveMapCall m r rel = .notFound ∧ serveMap m env r rel = some httpNotFound) := by
  refine ⟨?_, ?_, ?_⟩
  · intro f z x y
    constructor
    · intro h
      unfold serveMapCall at h
      by_cases hm : hasSuffix rel "/metadata.json".toList = true
      · rw [if_pos hm] at h
        exact MapCall.noConfusion h
      · rw [if_neg hm] at h
        cases ht : tileCall rel with
        | none =>
          rw [ht] at h
          dsimp only at h
          split_ifs at h
        | some c =>
          rw [ht] at h
          dsimp only at h
          subst h
          by_cases hn : 3 ≤ (splitSlash rel).length
          · obtain ⟨pre, a, b, c, hs⟩ := exists_last_three _ hn
            rw [tileCall_of_split rel pre a b c hs] at ht
            by_cases hp : pre = []
            · rw [if_pos hp] at ht
              exact Option.noConfusion ht
            · rw [if_neg hp] at ht
              refine ⟨pre, a, b, c, hs, hp, ?_⟩
              cases ha : atoi a <;> cases hb : atoi b <;> cases hc : atoi c <;>
                rw [ha, hb, hc] at ht <;> dsimp only at ht <;>
                first
                  | exact Option.noConfusion ht
                  | skip
              by_cases hsuf : hasSuffix (joinSlash pre) ".mbtiles".toList = true
              · rw [if_pos hsuf] at ht
                injection ht with ht
                injection ht with h1 h2 h3 h4
                subst h1 h2 h3 h4
                exact ⟨rfl, rfl, rfl, rfl, hsuf⟩
              · rw [if_neg hsuf] at ht
                exact Option.noConfusion ht
          · rw [tileCall_short rel hn] at ht
            exact Option.noConfusion ht
    · rintro ⟨pre, sz, sx, sy, hs, hp, hz, hx, hy, hf, hsuf⟩
      unfold serveMapCall
      have hm : hasSuffix rel "/metadata.json".toList = false :=
        hasSuffix_false_of_int_last rel pre sz sx sy _ y 'n' hs hy (by decide) (by decide)
      rw [hm, tileCall_of_split rel pre sz sx sy hs, if_neg hp, hz, hx, hy]
      dsimp only
      rw [← hf, if_pos hsuf]
      simp
  · intro f z x y h
    unfold serveMap
    rw [h]
    rfl
  · intro pre sz sx sy z x y hs hz hx hy hsuf
    have hm : hasSuffix rel "/metadata.json".toList = false :=
      hasSuffix_false_of_int_last rel pre sz sx sy _ y 'n' hs hy (by decide) (by decide)
    have h1 : hasSuffix rel ".mbtiles".toList = false :=
      hasSuffix_false_of_int_last rel pre sz sx sy _ y 's' hs hy (by decide) (by decide)
    have h2 : hasSuffix rel ".pmtiles".toList = false :=
      hasSuffix_false_of_int_last rel pre sz sx sy _ y 's' hs hy (by decide) (by decide)
    have ht : tileCall rel = none := by
      rw [tileCall_of_split rel pre sz sx sy hs, hz, hx, hy]
      dsimp only
      rw [hsuf]
      simp
    have hcall : serveMapCall m r rel = .notFound := by
      unfold serveMapCall
      rw [hm, ht, h1, h2]
      simp
    refine ⟨hcall, ?_⟩
    unfold serveMap
    rw [hcall]
    rfl

/-- C7, on two remainders: `a.mbtiles/1/0/0` is dispatched to
`handleMBTiles("a.mbtiles", 1, 0, 0)`, `a.pmtiles/1/0/0` is not-found. -/
theorem tile_route_witness :
    serveMapCall (dirServer "/data/maps".toList) (get "/maps/map/a.mbtiles/1/0/0".toList)
        "a.mbtiles/1/0/0".toList = .handleMBTiles "a.mbtiles".toList 1 0 0 ∧
    serveMapCall (dirServer "/data/maps".toList) (get "/maps/map/a.pmtiles/1/0/0".toList)
        "a.pmtiles/1/0/0".toList = .notFound :=
  ⟨((tile_route (dirServer "/data/maps".toList) (envOf none)
      (get "/maps/map/a.mbtiles/1/0/0".toList) "a.mbtiles/1/0/0".toList).1
      "a.mbtiles".toList 1 0 0).2
      ⟨["a.mbtiles".toList], "1".toList, "0".toList, "0".toList,
        by decide, by decide, by decide, by decide, by decide, by decide, by decide⟩,
   ((tile_route (dirServer "/data/maps".toList) (envOf none)
      (get "/maps/map/a.pmtiles/1/0/0".toList) "a.pmtiles/1/0/0".toList).2.2
      ["a.pmtiles".toList] "1".toList "0".toList "0".toList 1 0 0
      (by decide) (by decide) (by decide) (by decide) (by decide)).1⟩

end EjaMaps
